import Mathlib

/-!
Verification of the eGauge JSON client (egauge-async) against its
natural-language specification.

The development shallowly embeds the authentication manager
(`src/egauge_async/json/auth.py`), the measurement/response decoding pipeline
(`src/egauge_async/json/client.py`) and the quantum table
(`src/egauge_async/json/type_codes.py`):

* Python numbers (`time.time()` timestamps, quanta, JSON numbers) are modelled
  as exact rationals `ℚ`; decimal literals such as `0.001` denote the exact
  decimal value.
* Fallible code (Python `raise`) is modelled with `Except EgaugeError`.
  Each distinct `raise` site of the source is a distinct error value carrying
  the source's message; Python's built-in `KeyError` (unchecked dict access)
  is a separate error constructor from the repository's own exception types.
* The cooperative asyncio scheduling of `JwtAuthManager.get_token` is
  modelled as a small-step transition relation in which each code segment
  between `await` suspension points is one atomic step.
-/

namespace EgaugeAsync

/-- Embeds `_TokenState` (auth.py lines 15-21): internal state for JWT token
management. Timestamps are Unix seconds as exact rationals. -/
structure TokenState where
  token : String
  expiry_timestamp : ℚ
  issued_at : ℚ
  deriving DecidableEq, Repr

/-- Embeds `JwtAuthManager._is_token_valid` (auth.py lines 219-232).
`state` is `self._token_state`, `buffer` is `self._refresh_buffer_seconds`,
and `now` is the value of `time.time()` at the call. -/
def is_token_valid (state : Option TokenState) (buffer : ℚ) (now : ℚ) : Bool :=
  match state with
  | none => false
  | some st => decide (now < st.expiry_timestamp - buffer)

/-- Error values of the client. The repository's own exception classes
(`exceptions.py`) are `parsingException` (`EgaugeParsingException`),
`authenticationError` (`EgaugeAuthenticationError`) and `unknownRegister`
(`EgaugeUnknownRegisterError`), each carrying the raised message. Python
built-ins raised by unchecked operations are modelled separately:
`keyError k` for `d[k]` on a dict lacking key `k`, `indexError` for
out-of-range list indexing. -/
inductive EgaugeError where
  | parsingException (msg : String)
  | authenticationError (msg : String)
  | unknownRegister (msg : String)
  | keyError (key : String)
  | indexError
  deriving DecidableEq, Repr

/-- True exactly for the repository's `EgaugeParsingException`
(the spec's `ResponseParsingFailed` / `TokenParsingFailed` taxonomy entries);
false for Python built-in `KeyError` / `IndexError`. -/
def isEgaugeParsingException : EgaugeError → Bool
  | .parsingException _ => true
  | _ => false

/-- One JSON value stored under a claim key of a decoded JWT payload, as seen
by the Python code after `json.loads`:
`num q` is a JSON number (Python `int`/`float`), `str s p` is a JSON string
whose Python `float(s)` conversion yields `p` (`none` when `float` raises
`ValueError`), and `other t` is any other JSON value whose Python type name
is `t` (e.g. `"list"`, `"NoneType"`). -/
inductive JwtClaim where
  | num (q : ℚ)
  | str (s : String) (parsed : Option ℚ)
  | other (typeName : String)
  deriving DecidableEq, Repr

/-- The decoded JWT payload fields consulted by `_parse_jwt_expiry`
(auth.py lines 98-100): `payload_json.get("beg")`, `payload_json.get("ltm")`.
The `exp` field stores a standard JWT expiry claim when the payload carries
one; the code never reads it, but it is kept here so that statements about
tokens with an `exp` claim can be made. -/
structure JwtPayload where
  beg : Option JwtClaim
  ltm : Option JwtClaim
  exp : Option JwtClaim
  deriving DecidableEq, Repr

/-- Message of auth.py lines 102-105. -/
def missingBegMsg : String := "JWT missing 'beg' (begin timestamp) claim"

/-- Message of auth.py line 108. -/
def missingLtmMsg : String := "JWT missing 'ltm' (lifetime) claim"

/-- Message of auth.py lines 151-154 (numeric renderings differ from Python
`str()` formatting but carry the same values). -/
def alreadyExpiredMsg (beg ltm expiry now : ℚ) : String :=
  "JWT already expired (beg=" ++ toString beg ++ ", ltm=" ++ toString ltm ++
    ", expiry=" ++ toString expiry ++ ", now=" ++ toString now ++ ")"

/-- Embeds the claim-number coercion of auth.py lines 110-134 for one claim
named `which` (`"beg"` or `"ltm"`): a numeric claim passes through, a string
claim is converted via `float(...)` (failure raises the invalid-string
message), and any other type fails the `isinstance` check. -/
def coerceNumericClaim (which : String) : JwtClaim → Except EgaugeError ℚ
  | .num q => .ok q
  | .str s p =>
    match p with
    | some q => .ok q
    | none =>
      .error (.parsingException
        ("JWT '" ++ which ++ "' claim must be numeric, got invalid string: '" ++ s ++ "'"))
  | .other t =>
    .error (.parsingException ("JWT '" ++ which ++ "' claim must be numeric, got " ++ t))

/-- Embeds `JwtAuthManager._parse_jwt_expiry` from the decoded-payload stage
onward (auth.py lines 98-156); `now` is the value of `time.time()` at line
150. The earlier stages (segment split, base64url decode, `json.loads`) are
not needed by any claim and are elided: `payload` is the decoded claims map.
Note the code reads only `beg` and `ltm`, never `exp`. -/
def parse_jwt_expiry_claims (payload : JwtPayload) (now : ℚ) : Except EgaugeError ℚ := do
  let begClaim ← match payload.beg with
    | none => .error (.parsingException missingBegMsg)
    | some c => pure c
  let ltmClaim ← match payload.ltm with
    | none => .error (.parsingException missingLtmMsg)
    | some c => pure c
  let beg ← coerceNumericClaim "beg" begClaim
  let ltm ← coerceNumericClaim "ltm" ltmClaim
  if ltm ≤ 0 then
    .error (.parsingException ("JWT 'ltm' (lifetime) must be positive, got " ++ toString ltm))
  else if ltm > 86400 then
    .error (.parsingException
      ("JWT 'ltm' (lifetime) is too long (more than 86400 seconds): " ++ toString ltm))
  else
    let expiry := beg + ltm
    if expiry < now then
      .error (.parsingException (alreadyExpiredMsg beg ltm expiry now))
    else
      .ok expiry

/-!
MD5 (RFC 1321), used by `JwtAuthManager._calculate_digest_hash` through
Python's `hashlib.md5(...).hexdigest()`. Machine words are `Nat` reduced
modulo `2^32` explicitly; messages are byte lists (each byte a `Nat < 256`).
-/

/-- `2^32`. -/
def U32 : Nat := 4294967296

/-- 32-bit modular addition. -/
def add32 (a b : Nat) : Nat := (a + b) % U32

/-- 32-bit complement (as xor with the all-ones word). -/
def not32 (a : Nat) : Nat := Nat.xor a (U32 - 1)

/-- 32-bit left rotation of a word `x < 2^32` by `n < 32` bits. -/
def rotl32 (x n : Nat) : Nat := ((x <<< n) % U32) ||| (x >>> (32 - n))

/-- The 64 MD5 round constants `K[i] = floor(2^32 * abs(sin(i + 1)))`. -/
def md5K : List Nat := [
    0xd76aa478, 0xe8c7b756, 0x242070db, 0xc1bdceee, 0xf57c0faf, 0x4787c62a, 0xa8304613, 0xfd469501,
    0x698098d8, 0x8b44f7af, 0xffff5bb1, 0x895cd7be, 0x6b901122, 0xfd987193, 0xa679438e, 0x49b40821,
    0xf61e2562, 0xc040b340, 0x265e5a51, 0xe9b6c7aa, 0xd62f105d, 0x02441453, 0xd8a1e681, 0xe7d3fbc8,
    0x21e1cde6, 0xc33707d6, 0xf4d50d87, 0x455a14ed, 0xa9e3e905, 0xfcefa3f8, 0x676f02d9, 0x8d2a4c8a,
    0xfffa3942, 0x8771f681, 0x6d9d6122, 0xfde5380c, 0xa4beea44, 0x4bdecfa9, 0xf6bb4b60, 0xbebfbc70,
    0x289b7ec6, 0xeaa127fa, 0xd4ef3085, 0x04881d05, 0xd9d4d039, 0xe6db99e5, 0x1fa27cf8, 0xc4ac5665,
    0xf4292244, 0x432aff97, 0xab9423a7, 0xfc93a039, 0x655b59c3, 0x8f0ccc92, 0xffeff47d, 0x85845dd1,
    0x6fa87e4f, 0xfe2ce6e0, 0xa3014314, 0x4e0811a1, 0xf7537e82, 0xbd3af235, 0x2ad7d2bb, 0xeb86d391]

/-- The 64 MD5 per-round left-rotation amounts. -/
def md5S : List Nat := [
    7, 12, 17, 22, 7, 12, 17, 22, 7, 12, 17, 22, 7, 12, 17, 22,
    5, 9, 14, 20, 5, 9, 14, 20, 5, 9, 14, 20, 5, 9, 14, 20,
    4, 11, 16, 23, 4, 11, 16, 23, 4, 11, 16, 23, 4, 11, 16, 23,
    6, 10, 15, 21, 6, 10, 15, 21, 6, 10, 15, 21, 6, 10, 15, 21]

/-- Little-endian 32-bit word number `g` of a 64-byte chunk. -/
def leWord (chunk : List Nat) (g : Nat) : Nat :=
  chunk.getD (4 * g) 0 + 256 * chunk.getD (4 * g + 1) 0 +
    65536 * chunk.getD (4 * g + 2) 0 + 16777216 * chunk.getD (4 * g + 3) 0

/-- One MD5 round `i` (0-63) on state `(a, b, c, d)` over a 64-byte chunk. -/
def md5Round (chunk : List Nat) (st : Nat × Nat × Nat × Nat) (i : Nat) :
    Nat × Nat × Nat × Nat :=
  let (a, b, c, d) := st
  let f :=
    if i < 16 then (b &&& c) ||| (not32 b &&& d)
    else if i < 32 then (d &&& b) ||| (not32 d &&& c)
    else if i < 48 then Nat.xor (Nat.xor b c) d
    else Nat.xor c (b ||| not32 d)
  let g :=
    if i < 16 then i
    else if i < 32 then (5 * i + 1) % 16
    else if i < 48 then (3 * i + 5) % 16
    else (7 * i) % 16
  let tmp := add32 (add32 (add32 a f) (md5K.getD i 0)) (leWord chunk g)
  (d, add32 b (rotl32 tmp (md5S.getD i 0)), b, c)

/-- Process one 64-byte chunk: run the 64 rounds and add the result into the
incoming state words. -/
def md5ProcessChunk (st : Nat × Nat × Nat × Nat) (chunk : List Nat) :
    Nat × Nat × Nat × Nat :=
  let (a0, b0, c0, d0) := st
  let (a, b, c, d) := (List.range 64).foldl (md5Round chunk) st
  (add32 a0 a, add32 b0 b, add32 c0 c, add32 d0 d)

/-- The `len` low-order bytes of `n`, little-endian. -/
def leBytes (n : Nat) : Nat → List Nat
  | 0 => []
  | k + 1 => n % 256 :: leBytes (n / 256) k

/-- MD5 padding: append the `0x80` marker, zero-pad to 56 mod 64 bytes, then
append the original bit length as a 64-bit little-endian quantity. -/
def md5Pad (msg : List Nat) : List Nat :=
  let zeros := (120 - (msg.length + 1) % 64) % 64
  msg ++ [0x80] ++ List.replicate zeros 0 ++ leBytes ((8 * msg.length) % 2 ^ 64) 8

/-- Split a byte list into successive 64-byte chunks (structural recursion on
a fuel bound so that the definition reduces inside the kernel). -/
def chunksAux : Nat → List Nat → List (List Nat)
  | 0, _ => []
  | _ + 1, [] => []
  | fuel + 1, l@(_ :: _) => l.take 64 :: chunksAux fuel (l.drop 64)

/-- Split a byte list into successive 64-byte chunks. -/
def chunks64 (l : List Nat) : List (List Nat) := chunksAux l.length l

/-- MD5 digest of a byte-list message: 16 output bytes. -/
def md5Bytes (msg : List Nat) : List Nat :=
  let init : Nat × Nat × Nat × Nat := (0x67452301, 0xefcdab89, 0x98badcfe, 0x10325476)
  let (a, b, c, d) := (chunks64 (md5Pad msg)).foldl md5ProcessChunk init
  leBytes a 4 ++ leBytes b 4 ++ leBytes c 4 ++ leBytes d 4

/-- UTF-8 encoding of one character (Python `str.encode()` is UTF-8). -/
def utf8Encode (c : Char) : List Nat :=
  let n := c.toNat
  if n < 0x80 then [n]
  else if n < 0x800 then [0xC0 ||| (n >>> 6), 0x80 ||| (n &&& 0x3F)]
  else if n < 0x10000 then
    [0xE0 ||| (n >>> 12), 0x80 ||| ((n >>> 6) &&& 0x3F), 0x80 ||| (n &&& 0x3F)]
  else
    [0xF0 ||| (n >>> 18), 0x80 ||| ((n >>> 12) &&& 0x3F),
      0x80 ||| ((n >>> 6) &&& 0x3F), 0x80 ||| (n &&& 0x3F)]

/-- UTF-8 bytes of a string (Python `s.encode()`). -/
def strBytes (s : String) : List Nat := s.data.flatMap utf8Encode

/-- The sixteen lowercase hexadecimal digits. -/
def hexDigits : List Char := "0123456789abcdef".data

/-- Two lowercase hex characters for one byte. -/
def byteToHex (b : Nat) : List Char :=
  [hexDigits.getD (b / 16 % 16) '0', hexDigits.getD (b % 16) '0']

/-- Python `hashlib.md5(s.encode()).hexdigest()`: the MD5 digest of the UTF-8
bytes of `s`, rendered as 32 lowercase hex characters. -/
def md5_hexdigest (s : String) : String := ⟨(md5Bytes (strBytes s)).flatMap byteToHex⟩

/-- Embeds `JwtAuthManager._calculate_digest_hash` (auth.py lines 170-191):
`ha1 = md5(username:realm:password).hexdigest()` then
`md5(ha1:server_nonce:client_nonce).hexdigest()`. -/
def calculate_digest_hash (username password realm server_nonce client_nonce : String) :
    String :=
  let ha1 := md5_hexdigest (username ++ ":" ++ realm ++ ":" ++ password)
  md5_hexdigest (ha1 ++ ":" ++ server_nonce ++ ":" ++ client_nonce)

/-!
Register catalog and quantum table (`models.py`, `type_codes.py`).
-/

/-- Embeds the `RegisterType` enum (models.py lines 5-45). The API string
values are not needed by the claims considered here. -/
inductive RegisterType where
  | WHOLE_NUMBER | NUMBER_3_DECIMAL | DISCRETE
  | POWER | APPARENT_POWER | REACTIVE_POWER
  | VOLTAGE | CURRENT | RESISTANCE | ELECTRIC_CHARGE
  | TEMPERATURE | HUMIDITY | PRESSURE | AIR_QUALITY
  | FREQUENCY | ANGLE | THD
  | MASS_FLOW | VOLUMETRIC_FLOW | MASS | SPEED
  | PERCENTAGE | MONETARY | IRRADIANCE | PPM
  deriving DecidableEq, Repr

/-- Embeds `get_quantum` over the static `TYPE_CODES` table
(type_codes.py lines 27-117): the `quantum` column, with the Python float
literals `1.0`, `0.001`, `1e-9`, `2**-29` taken at their exact decimal/dyadic
values. -/
def get_quantum : RegisterType → ℚ
  | .WHOLE_NUMBER => 1
  | .NUMBER_3_DECIMAL => 1 / 1000
  | .DISCRETE => 1
  | .POWER => 1
  | .APPARENT_POWER => 1
  | .REACTIVE_POWER => 1
  | .VOLTAGE => 1 / 1000
  | .CURRENT => 1 / 1000
  | .RESISTANCE => 1
  | .ELECTRIC_CHARGE => 1 / 1000
  | .TEMPERATURE => 1 / 1000
  | .HUMIDITY => 1 / 1000
  | .PRESSURE => 1
  | .AIR_QUALITY => 1 / 1000
  | .FREQUENCY => 1 / 1000
  | .ANGLE => 1 / 1000
  | .THD => 1 / 1000
  | .MASS_FLOW => 1
  | .VOLUMETRIC_FLOW => 1 / 1000000000
  | .MASS => 1 / 1000
  | .SPEED => 1 / 1000
  | .PERCENTAGE => 1 / 1000
  | .MONETARY => 1 / 2 ^ 29
  | .IRRADIANCE => 1
  | .PPM => 1 / 1000

/-- Embeds `RegisterInfo` (models.py lines 48-53). -/
structure RegisterInfo where
  name : String
  type : RegisterType
  idx : ℤ
  did : Option ℤ
  deriving DecidableEq, Repr

/-!
JSON response shapes consumed by `EgaugeJsonClient` (client.py). Optional
fields model the presence or absence of the JSON key. A JSON string holding a
number (`range_obj["ts"]`, row values) is modelled by its parsed numeric
value, since the code immediately parses it (`float(...)` / `int(...)`).
-/

/-- One entry of the `registers` array of an `/api/register` response. The
`type` field holds a valid register type when the key is present (an invalid
type-code string is not needed by any claim). -/
structure RegJson where
  name : Option String
  type : Option RegisterType
  rate : Option ℚ
  deriving DecidableEq, Repr

/-- One entry of the `ranges` array: anchor timestamp string `ts`, per-row
time `delta`, and `rows` of raw integer counter strings. -/
structure RangeJson where
  ts : Option ℚ
  delta : Option ℚ
  rows : Option (List (List ℤ))
  deriving DecidableEq, Repr

/-- An `/api/register` measurement response body. `none` means the JSON key
is absent; the code reads both arrays with `data.get(key, [])`. -/
structure RegisterResponse where
  registers : Option (List RegJson)
  ranges : Option (List RangeJson)
  deriving DecidableEq, Repr

/-- Embeds the register metadata extraction loop shared by
`get_current_counters` (client.py lines 246-256) and
`get_historical_counters` (lines 358-368): collect `name` and `type` of each
entry, failing on a missing field with the code's message. -/
def extractNamesTypes : List RegJson → Except EgaugeError (List String × List RegisterType)
  | [] => .ok ([], [])
  | r :: rest =>
    match r.name with
    | none => .error (.parsingException "Register missing 'name' field in response")
    | some n =>
      match r.type with
      | none =>
        .error (.parsingException ("Register '" ++ n ++ "' missing 'type' field in response"))
      | some t => do
        let (ns, ts) ← extractNamesTypes rest
        .ok (n :: ns, t :: ts)

/-- Embeds the per-row value conversion loop (client.py lines 286-290 and
383-387): `for j, value_str in enumerate(row): raw * get_quantum(types[j])`
keyed by `names[j]`. Indexing past the `registers` metadata raises a Python
`IndexError`. (Python builds a dict keyed by name; the insertion-ordered
association list is kept here.) -/
def convertRow : List String → List RegisterType → List ℤ → Except EgaugeError (List (String × ℚ))
  | _, _, [] => .ok []
  | n :: ns, t :: ts, v :: vs => do
    let rest ← convertRow ns ts vs
    .ok ((n, (v : ℚ) * get_quantum t) :: rest)
  | _, _, _ :: _ => .error .indexError

/-- Message of client.py lines 261-264 (one raise site covering both a
missing `ranges` key and an empty `ranges` array). -/
def msgRangesMissingOrEmpty : String := "Response missing 'ranges' array or array is empty"

/-- Message of client.py lines 265-268. -/
def msgTooManyRanges (n : Nat) : String :=
  "Expected 1 range for time=now query, got " ++ toString n

/-- Message of client.py lines 271-272. -/
def msgRowsMissing : String := "Range object missing 'rows' field"

/-- Message of client.py line 276. -/
def msgRowsEmpty : String := "Range 'rows' array is empty"

/-- Message of client.py lines 277-280. -/
def msgTooManyRows (n : Nat) : String :=
  "Expected 1 row for time=now query, got " ++ toString n

/-- Embeds the response-decoding tail of `EgaugeJsonClient.get_current_counters`
(client.py lines 239-292): extract register metadata, require exactly one
range with exactly one row, and convert the row's raw values by quantum. -/
def get_current_counters_parse (data : RegisterResponse) :
    Except EgaugeError (List (String × ℚ)) := do
  let (reg_names, reg_types) ← extractNamesTypes (data.registers.getD [])
  let ranges := data.ranges.getD []
  match ranges with
  | [] => .error (.parsingException msgRangesMissingOrEmpty)
  | range_obj :: extraRanges =>
    if extraRanges ≠ [] then
      .error (.parsingException (msgTooManyRanges ranges.length))
    else
      match range_obj.rows with
      | none => .error (.parsingException msgRowsMissing)
      | some rows =>
        match rows with
        | [] => .error (.parsingException msgRowsEmpty)
        | row :: extraRows =>
          if extraRows ≠ [] then
            .error (.parsingException (msgTooManyRows rows.length))
          else
            convertRow reg_names reg_types row

/-- Embeds the measurement-decoding loop of
`EgaugeJsonClient.get_current_measurements` (client.py lines 181-195):
collect `name → rate`, failing on a missing field. -/
def parse_current_measurements : List RegJson → Except EgaugeError (List (String × ℚ))
  | [] => .ok []
  | r :: rest =>
    match r.name with
    | none => .error (.parsingException "Register missing 'name' field in response")
    | some n =>
      match r.rate with
      | none =>
        .error (.parsingException ("Register '" ++ n ++ "' missing 'rate' field in response"))
      | some rate => do
        let ms ← parse_current_measurements rest
        .ok ((n, rate) :: ms)

/-- Embeds the per-range row loop of `get_historical_counters`
(client.py lines 377-389): row `i` of a range is stamped `ts - i * delta` and
converted by quantum; `i` is the running `enumerate` counter. -/
def processRows (names : List String) (types : List RegisterType) (ts delta : ℚ) :
    Nat → List (List ℤ) → Except EgaugeError (List (ℚ × List (String × ℚ)))
  | _, [] => .ok []
  | i, row :: rest => do
    let vals ← convertRow names types row
    let restRows ← processRows names types ts delta (i + 1) rest
    .ok ((ts - (i : ℚ) * delta, vals) :: restRows)

/-- Embeds the range loop of `get_historical_counters` (client.py lines
371-391). `range_obj["ts"]`, `range_obj["delta"]` and `range_obj["rows"]` are
unchecked dict accesses: a missing key raises a Python `KeyError`, not an
`EgaugeParsingException`. Rows of successive ranges are appended to one
result list in response order. -/
def processRanges (names : List String) (types : List RegisterType) :
    List RangeJson → Except EgaugeError (List (ℚ × List (String × ℚ)))
  | [] => .ok []
  | r :: rest => do
    let ts ← match r.ts with
      | none => .error (.keyError "ts")
      | some v => pure v
    let delta ← match r.delta with
      | none => .error (.keyError "delta")
      | some v => pure v
    let rows ← match r.rows with
      | none => .error (.keyError "rows")
      | some v => pure v
    let rowsOut ← processRows names types ts delta 0 rows
    let restOut ← processRanges names types rest
    .ok (rowsOut ++ restOut)

/-- Embeds the response-decoding tail of
`EgaugeJsonClient.get_historical_counters` (client.py lines 350-391). Each
result row is the pair of its timestamp (the argument of
`dt.fromtimestamp(..., tz=utc)`) and its name-keyed converted values. -/
def get_historical_counters_parse (data : RegisterResponse) :
    Except EgaugeError (List (ℚ × List (String × ℚ))) := do
  let (reg_names, reg_types) ← extractNamesTypes (data.registers.getD [])
  processRanges reg_names reg_types (data.ranges.getD [])

/-- The specification-side row conversion, written from the spec's words
(§4.6): each raw value multiplied by the quantum for its register's type
code, aligned to the `registers` array order. Compared against the
source-side `convertRow`. -/
def histSpecRow (names : List String) (types : List RegisterType) (row : List ℤ) :
    List (String × ℚ) :=
  (names.zip (types.zip row)).map fun p => (p.1, (p.2.2 : ℚ) * get_quantum p.2.1)

/-!
Register-filter resolution and request building (client.py lines 160-176,
220-234, 321-345). The register catalog (`get_register_info`'s cached
name → `RegisterInfo` mapping) is given as an association list; query
parameters are ordered key/value pairs.
-/

/-- Python `dict` lookup on a name → `RegisterInfo` mapping. -/
def dictLookup (reg_info : List (String × RegisterInfo)) (key : String) : Option RegisterInfo :=
  (reg_info.find? (fun p => p.1 = key)).map (·.2)

/-- Embeds the name-to-index resolution loop (client.py lines 167-171 and the
identical loops at 226-230 and 334-338): the first name absent from the
catalog raises `EgaugeUnknownRegisterError` immediately; no batch of
unresolved names is collected. -/
def resolve_indices (reg_info : List (String × RegisterInfo)) :
    List String → Except EgaugeError (List ℤ)
  | [] => .ok []
  | r :: rest =>
    match dictLookup reg_info r with
    | none => .error (.unknownRegister ("Unknown register " ++ r))
    | some info => do
      let idxs ← resolve_indices reg_info rest
      .ok (info.idx :: idxs)

/-- The `reg` query parameter `"none+idx1+idx2+..."` (client.py line 175). -/
def regParamValue (indices : List ℤ) : String :=
  "none" ++ String.join (indices.map fun idx => "+" ++ toString idx)

/-- Embeds the shared filtering block
`if registers is not None and len(registers) > 0: ... if indices: params["reg"] = ...`
(client.py lines 164-176, 224-234, 332-342) on top of the method's base
query parameters. An empty-list filter takes the same path as `None`: the
block is skipped entirely and no catalog lookup happens. -/
def build_reg_params (reg_info : List (String × RegisterInfo))
    (registers : Option (List String)) (base : List (String × String)) :
    Except EgaugeError (List (String × String)) :=
  match registers with
  | none => .ok base
  | some regs =>
    if regs.length > 0 then do
      let indices ← resolve_indices reg_info regs
      if indices ≠ [] then
        .ok (base ++ [("reg", regParamValue indices)])
      else
        .ok base
    else
      .ok base

/-- Embeds `EgaugeJsonClient.get_current_measurements` (client.py lines
149-195) with the register catalog given (the cached `get_register_info`
result) and the HTTP transport abstracted as `respond`, mapping the issued
query parameters to the response body. The second component is the list of
measurement GET requests issued (each as its query parameters): empty when
the method fails before reaching the HTTP call. -/
def get_current_measurements_run (reg_info : List (String × RegisterInfo))
    (registers : Option (List String))
    (respond : List (String × String) → RegisterResponse) :
    Except EgaugeError (List (String × ℚ)) × List (List (String × String)) :=
  match build_reg_params reg_info registers [("rate", "")] with
  | .error e => (.error e, [])
  | .ok params =>
    let data := respond params
    (parse_current_measurements (data.registers.getD []), [params])

/-- Embeds `EgaugeJsonClient.get_current_counters` (client.py lines 197-292),
with catalog and transport as in `get_current_measurements_run`. -/
def get_current_counters_run (reg_info : List (String × RegisterInfo))
    (registers : Option (List String))
    (respond : List (String × String) → RegisterResponse) :
    Except EgaugeError (List (String × ℚ)) × List (List (String × String)) :=
  match build_reg_params reg_info registers [("time", "now")] with
  | .error e => (.error e, [])
  | .ok params =>
    let data := respond params
    (get_current_counters_parse data, [params])

/-- Embeds `EgaugeJsonClient.get_historical_counters` (client.py lines
294-391), with catalog and transport as above. `start_ts`, `end_ts` and
`step_seconds` are the integer Unix quantities computed at lines 324-326;
`max_rows` adds the `max-rows` parameter (line 344-345). -/
def get_historical_counters_run (reg_info : List (String × RegisterInfo))
    (start_ts end_ts step_seconds : ℤ) (registers : Option (List String))
    (max_rows : Option ℤ)
    (respond : List (String × String) → RegisterResponse) :
    Except EgaugeError (List (ℚ × List (String × ℚ))) × List (List (String × String)) :=
  let base := [("time",
    toString start_ts ++ ":" ++ toString step_seconds ++ ":" ++ toString end_ts)]
  match build_reg_params reg_info registers base with
  | .error e => (.error e, [])
  | .ok params =>
    let params := params ++ (match max_rows with
      | some m => [("max-rows", toString m)]
      | none => [])
    let data := respond params
    (get_historical_counters_parse data, [params])

/-- The computation `x` never fails with `EgaugeUnknownRegisterError`. -/
def NoUnknown {α : Type} (x : Except EgaugeError α) : Prop :=
  ∀ msg, x ≠ .error (.unknownRegister msg)

/-!
Concurrency model of `JwtAuthManager.get_token` (auth.py lines 286-340).

asyncio schedules coroutines cooperatively: a task runs uninterrupted between
`await` suspension points. The suspension points of `get_token` are the lock
acquisition (`async with self._token_lock`, line 307), the nonce GET inside
`_fetch_nonce` (line 207) and the login POST inside `_perform_login`
(line 256); everything between two suspension points is one atomic step.
The model fixes the clock (`time.time()` returns `now` throughout — validity
of a given token state cannot change mid-scenario) and mocks the transport:
the nonce fetch and login always succeed and the login returns a token
`newTok` whose parsed expiry is `newExpiry` (cached with
`issued_at = now`, auth.py lines 336-338).

Collapsing lock-grant and the resumed recheck into one step is sound: only
the lock holder mutates `_token_state`, so nothing can change between the
grant and the granted task's next segment.
-/

/-- One concurrent-`get_token` scenario: the initial cached state, the
manager's refresh buffer, the fixed clock, and the token minted by the mocked
transport. -/
structure AuthScenario where
  init : Option TokenState
  buffer : ℚ
  now : ℚ
  newTok : String
  newExpiry : ℚ

/-- The token state cached by `_authenticate_and_cache` (auth.py 336-338). -/
def AuthScenario.fresh (cfg : AuthScenario) : TokenState :=
  ⟨cfg.newTok, cfg.newExpiry, cfg.now⟩

/-- Where one `get_token` caller stands, segment by segment:
before its first segment (`start`), waiting on the lock (`wantLock`), holding
the lock with the nonce GET in flight (`fetching`), holding the lock with the
login POST in flight (`loggingIn`), or returned with a token (`done`). -/
inductive TaskSt where
  | start
  | wantLock
  | fetching
  | loggingIn
  | done (tok : String)
  deriving DecidableEq, Repr

/-- The shared state of one `JwtAuthManager` plus its concurrent callers and
the transport counters: `tokenState` is `self._token_state`, `lockHeld` is
`self._token_lock`, `nonceFetches` and `loginPosts` count the HTTP calls
issued to `/api/auth/unauthorized` and `/api/auth/login`. -/
structure AuthSys where
  tokenState : Option TokenState
  lockHeld : Bool
  tasks : Multiset TaskSt
  nonceFetches : Nat
  loginPosts : Nat

/-- Small-step interleaving semantics of N concurrent `get_token` calls.
Each constructor advances one task through one inter-`await` segment:
* `fastPathHit` / `fastPathMiss`: lines 302-304 — the unlocked validity
  check; a valid cached token is returned at once, otherwise the task waits
  on the lock;
* `acquireValid`: lines 307-310 — the lock is free, the task acquires it,
  the recheck finds a (meanwhile refreshed) valid token, releases the lock
  and returns the cached token;
* `acquireInvalid`: lines 307-313, 328 — the lock is free, the recheck still
  finds no valid token, and the task issues the nonce GET while holding the
  lock;
* `nonceResponds`: lines 328-329 — the mocked nonce response arrives and the
  task issues the login POST, still holding the lock;
* `loginResponds`: lines 329-340 — the mocked login response arrives; the
  task parses the expiry, replaces the cached token state, releases the lock
  and returns the new token. -/
inductive AuthStep (cfg : AuthScenario) : AuthSys → AuthSys → Prop
  | fastPathHit (ts : TokenState) (lock : Bool) (rest : Multiset TaskSt) (nf lp : Nat) :
      is_token_valid (some ts) cfg.buffer cfg.now = true →
      AuthStep cfg ⟨some ts, lock, .start ::ₘ rest, nf, lp⟩
        ⟨some ts, lock, .done ts.token ::ₘ rest, nf, lp⟩
  | fastPathMiss (tok : Option TokenState) (lock : Bool) (rest : Multiset TaskSt) (nf lp : Nat) :
      is_token_valid tok cfg.buffer cfg.now = false →
      AuthStep cfg ⟨tok, lock, .start ::ₘ rest, nf, lp⟩
        ⟨tok, lock, .wantLock ::ₘ rest, nf, lp⟩
  | acquireValid (ts : TokenState) (rest : Multiset TaskSt) (nf lp : Nat) :
      is_token_valid (some ts) cfg.buffer cfg.now = true →
      AuthStep cfg ⟨some ts, false, .wantLock ::ₘ rest, nf, lp⟩
        ⟨some ts, false, .done ts.token ::ₘ rest, nf, lp⟩
  | acquireInvalid (tok : Option TokenState) (rest : Multiset TaskSt) (nf lp : Nat) :
      is_token_valid tok cfg.buffer cfg.now = false →
      AuthStep cfg ⟨tok, false, .wantLock ::ₘ rest, nf, lp⟩
        ⟨tok, true, .fetching ::ₘ rest, nf + 1, lp⟩
  | nonceResponds (tok : Option TokenState) (lock : Bool) (rest : Multiset TaskSt) (nf lp : Nat) :
      AuthStep cfg ⟨tok, lock, .fetching ::ₘ rest, nf, lp⟩
        ⟨tok, lock, .loggingIn ::ₘ rest, nf, lp + 1⟩
  | loginResponds (tok : Option TokenState) (lock : Bool) (rest : Multiset TaskSt) (nf lp : Nat) :
      AuthStep cfg ⟨tok, lock, .loggingIn ::ₘ rest, nf, lp⟩
        ⟨some cfg.fresh, false, .done cfg.newTok ::ₘ rest, nf, lp⟩

/-- The initial state of a scenario with `n` concurrent callers: the cached
state is `cfg.init`, the lock is free, no HTTP call has been made and every
caller is about to run its fast-path check. -/
def AuthSys.initial (cfg : AuthScenario) (n : Nat) : AuthSys :=
  ⟨cfg.init, false, Multiset.replicate n .start, 0, 0⟩

/-- 1 when the mocked transport's fresh token has been cached. -/
def refreshedBit (cfg : AuthScenario) (s : AuthSys) : Nat :=
  if s.tokenState = some cfg.fresh then 1 else 0

/-- The inductive invariant of the concurrent scenario: the cached state is
either the initial one or the fresh one; at most one task is inside the
lock-protected refresh, exactly when the lock is held; the HTTP counters
equal the refresh progress; and every returned caller got the fresh token. -/
structure AuthInv (cfg : AuthScenario) (s : AuthSys) : Prop where
  token_cases : s.tokenState = cfg.init ∨ s.tokenState = some cfg.fresh
  flight_le : s.tasks.count .fetching + s.tasks.count .loggingIn ≤ 1
  lock_iff : s.lockHeld = true ↔ s.tasks.count .fetching + s.tasks.count .loggingIn = 1
  nonce_eq : s.nonceFetches =
    s.tasks.count .fetching + s.tasks.count .loggingIn + refreshedBit cfg s
  login_eq : s.loginPosts = s.tasks.count .loggingIn + refreshedBit cfg s
  fresh_no_flight : s.tokenState = some cfg.fresh →
    s.tasks.count .fetching + s.tasks.count .loggingIn = 0
  done_ok : ∀ tok, TaskSt.done tok ∈ s.tasks →
    tok = cfg.newTok ∧ s.tokenState = some cfg.fresh

end EgaugeAsync

open EgaugeAsync

/-- C5: `is_token_valid` returns true iff a token state exists and the current
time is strictly below `expiry_timestamp - buffer`; in particular a token
expiring 90 seconds from now is invalid under a 120-second buffer and valid
under a 60-second buffer. -/
theorem is_token_valid_iff_and_buffer_boundary :
    (∀ (state : Option TokenState) (buffer now : ℚ),
      is_token_valid state buffer now = true ↔
        ∃ st, state = some st ∧ now < st.expiry_timestamp - buffer) ∧
    (∀ (now issued : ℚ) (tok : String),
      is_token_valid (some ⟨tok, now + 90, issued⟩) 120 now = false ∧
      is_token_valid (some ⟨tok, now + 90, issued⟩) 60 now = true) := by
  constructor
  · intro state buffer now
    cases state with
    | none => simp [is_token_valid]
    | some st =>
      simp only [is_token_valid, decide_eq_true_eq]
      constructor
      · intro h; exact ⟨st, rfl, h⟩
      · rintro ⟨st', hst, h⟩; cases hst; exact h
  · intro now issued tok
    constructor
    · simp only [is_token_valid, decide_eq_true_eq]
      simp only [decide_eq_false_iff_not, not_lt]
      linarith
    · simp only [is_token_valid, decide_eq_true_eq]
      linarith

/-- C2 counterexample: a payload carrying only a standard numeric `exp` claim
(no `beg`/`ltm`) does not parse successfully with `exp` as the expiry — it
fails with the missing-`beg` parsing error. -/
theorem parse_jwt_expiry_exp_only_fails :
    parse_jwt_expiry_claims ⟨none, none, some (.num 9999999999)⟩ 0 =
      .error (.parsingException missingBegMsg) := rfl

/-- C2 amended: `_parse_jwt_expiry` supports only the `beg`/`ltm` claim shape.
The `exp` claim is never consulted (the result is invariant under changing
it), and any payload lacking `beg` — in particular one carrying only a
standard `exp` claim — fails with the missing-`beg` parsing error. -/
theorem parse_jwt_expiry_ignores_exp_requires_beg_ltm :
    (∀ (beg ltm e1 e2 : Option JwtClaim) (now : ℚ),
      parse_jwt_expiry_claims ⟨beg, ltm, e1⟩ now =
        parse_jwt_expiry_claims ⟨beg, ltm, e2⟩ now) ∧
    (∀ (e : Option JwtClaim) (now : ℚ),
      parse_jwt_expiry_claims ⟨none, none, e⟩ now =
        .error (.parsingException missingBegMsg)) :=
  ⟨fun _ _ _ _ _ => rfl, fun _ _ => rfl⟩

/-- C3 counterexample: a computed expiry exactly equal to the current instant
is accepted, not rejected: with `beg = 900`, `ltm = 100`, `now = 1000` the
parse succeeds returning `1000`. -/
theorem parse_jwt_expiry_accepts_expiry_equal_now :
    parse_jwt_expiry_claims ⟨some (.num 900), some (.num 100), none⟩ 1000 =
      .ok 1000 := by
  simp only [parse_jwt_expiry_claims, coerceNumericClaim, pure, Except.pure, bind, Except.bind]
  norm_num

/-- C3 amended: for a payload with numeric `beg`/`ltm` claims and a lifetime
in the accepted range, the parse fails with the already-expired error exactly
when the computed expiry `beg + ltm` is strictly before the current instant;
an expiry at or after the current instant (including exactly equal) is
accepted and returned. -/
theorem parse_jwt_expiry_rejects_only_strictly_past
    (beg ltm now : ℚ) (e : Option JwtClaim)
    (h1 : 0 < ltm) (h2 : ltm ≤ 86400) :
    parse_jwt_expiry_claims ⟨some (.num beg), some (.num ltm), e⟩ now =
      if beg + ltm < now then
        .error (.parsingException (alreadyExpiredMsg beg ltm (beg + ltm) now))
      else
        .ok (beg + ltm) := by
  have h3 : ¬ (ltm ≤ (0 : ℚ)) := by linarith
  have h4 : ¬ (ltm > (86400 : ℚ)) := by linarith
  simp only [parse_jwt_expiry_claims, coerceNumericClaim, pure, Except.pure, bind, Except.bind]
  rw [if_neg h3, if_neg h4]

/-- Witness for the C3 amended theorem at `beg = 900`, `ltm = 100`,
`now = 2000` (a strictly past expiry, rejected). -/
theorem parse_jwt_expiry_rejects_only_strictly_past_witness :
    parse_jwt_expiry_claims ⟨some (.num 900), some (.num 100), none⟩ 2000 =
      if (900 : ℚ) + 100 < 2000 then
        .error (.parsingException (alreadyExpiredMsg 900 100 (900 + 100) 2000))
      else
        .ok (900 + 100) :=
  parse_jwt_expiry_rejects_only_strictly_past 900 100 2000 none
    (by norm_num) (by norm_num)

set_option maxRecDepth 100000 in
/-- Grounding of the MD5 embedding against the RFC 1321 test vector for the
empty message. -/
theorem md5_hexdigest_empty :
    md5_hexdigest "" = "d41d8cd98f00b204e9800998ecf8427e" := by decide

set_option maxRecDepth 100000 in
/-- Grounding of the MD5 embedding against the RFC 1321 test vector for
`"abc"`. -/
theorem md5_hexdigest_abc :
    md5_hexdigest "abc" = "900150983cd24fb0d6963f7d28e17f72" := by decide

set_option maxRecDepth 100000 in
/-- Grounding of the digest chain: the same reference value obtained by
running `hashlib.md5` twice, as in the repository's
`test_calculate_digest_hash_with_known_values` setup. -/
theorem calculate_digest_hash_vector :
    calculate_digest_hash "owner" "default" "eGauge Administration" "abc123" "def456" =
      "1c7518598318376d8c967999e7ae138a" := by decide

/-- C4: `_calculate_digest_hash` equals
`MD5(MD5(username:realm:password) : serverNonce : clientNonce)` with the inner
digest rendered as lowercase hex before concatenation, and is a pure
deterministic function: identical inputs always produce identical output. -/
theorem calculate_digest_hash_formula_and_deterministic :
    (∀ (u p r sn cn : String),
      calculate_digest_hash u p r sn cn =
        md5_hexdigest
          (md5_hexdigest (u ++ ":" ++ r ++ ":" ++ p) ++ ":" ++ sn ++ ":" ++ cn)) ∧
    (∀ (u p r sn cn u' p' r' sn' cn' : String),
      u = u' → p = p' → r = r' → sn = sn' → cn = cn' →
      calculate_digest_hash u p r sn cn = calculate_digest_hash u' p' r' sn' cn') := by
  refine ⟨fun u p r sn cn => rfl, ?_⟩
  rintro u p r sn cn u' p' r' sn' cn' rfl rfl rfl rfl rfl
  rfl

/-- Witness for C4's determinism conjunct at concrete inputs. -/
theorem calculate_digest_hash_formula_and_deterministic_witness :
    calculate_digest_hash "owner" "test123" "eGauge Administration" "sn" "cn" =
      calculate_digest_hash "owner" "test123" "eGauge Administration" "sn" "cn" :=
  calculate_digest_hash_formula_and_deterministic.2
    "owner" "test123" "eGauge Administration" "sn" "cn"
    "owner" "test123" "eGauge Administration" "sn" "cn" rfl rfl rfl rfl rfl

/-- Two strings differing at character position `k` are distinct. -/
theorem string_ne_of_get (a b : String) (k : Nat)
    (h : a.data[k]? ≠ b.data[k]?) : a ≠ b :=
  fun he => h (congrArg (fun s : String => s.data[k]?) he)

/-- Character `k` of `s ++ t` is character `k` of `s` when `k` is inside `s`. -/
theorem append_get_left (s t : String) (k : Nat) (h : k < s.data.length) :
    (s ++ t).data[k]? = s.data[k]? :=
  List.getElem?_append_left h

/-- Distinguishing characters of the five `get_current_counters` raise-site
messages: the two cardinality messages start with `E` and differ at position
12 (`range` vs `row`), the other three start with `R`. -/
theorem counters_msg_chars :
    (∀ n, (msgTooManyRanges n).data[0]? = some 'E') ∧
    (∀ n, (msgTooManyRows n).data[0]? = some 'E') ∧
    (∀ n, (msgTooManyRanges n).data[12]? = some 'a') ∧
    (∀ n, (msgTooManyRows n).data[12]? = some 'o') ∧
    msgRangesMissingOrEmpty.data[0]? = some 'R' ∧
    msgRowsMissing.data[0]? = some 'R' ∧
    msgRowsEmpty.data[0]? = some 'R' := by
  refine ⟨fun n => ?_, fun n => ?_, fun n => ?_, fun n => ?_, rfl, rfl, rfl⟩
  · rw [msgTooManyRanges, append_get_left _ _ _ (by decide)]; decide
  · rw [msgTooManyRows, append_get_left _ _ _ (by decide)]; decide
  · rw [msgTooManyRanges, append_get_left _ _ _ (by decide)]; decide
  · rw [msgTooManyRows, append_get_left _ _ _ (by decide)]; decide

/-- C6 counterexample: a response with the `ranges` key missing and a
response with zero ranges fail with the *same* parsing error (client.py has
one raise site covering both), so those two cases do not get distinct
errors. -/
theorem get_current_counters_missing_vs_empty_ranges_same_error :
    get_current_counters_parse ⟨some [], none⟩ =
      .error (.parsingException msgRangesMissingOrEmpty) ∧
    get_current_counters_parse ⟨some [], some []⟩ =
      .error (.parsingException msgRangesMissingOrEmpty) :=
  ⟨rfl, rfl⟩

/-- Shape of `get_current_counters_parse` once the register metadata has been
extracted: the cardinality checks on `ranges` and `rows`. -/
theorem get_current_counters_parse_eq (data : RegisterResponse)
    (names : List String) (types : List RegisterType)
    (hx : extractNamesTypes (data.registers.getD []) = .ok (names, types)) :
    get_current_counters_parse data =
      match data.ranges.getD [] with
      | [] => .error (.parsingException msgRangesMissingOrEmpty)
      | [ro] =>
        (match ro.rows with
         | none => .error (.parsingException msgRowsMissing)
         | some [] => .error (.parsingException msgRowsEmpty)
         | some [row] => convertRow names types row
         | some (_ :: _ :: ws) => .error (.parsingException (msgTooManyRows (ws.length + 2))))
      | _ :: _ :: rs => .error (.parsingException (msgTooManyRanges (rs.length + 2))) := by
  unfold get_current_counters_parse
  rw [hx]
  simp only [bind, Except.bind]
  rcases data.ranges.getD [] with _ | ⟨ro, _ | ⟨r2, rs⟩⟩
  · rfl
  · obtain ⟨ts, delta, rows⟩ := ro
    rcases rows with _ | (_ | ⟨row, _ | _⟩) <;> simp
  · simp

/-- C6 amended: `get_current_counters` succeeds only on exactly one range
with exactly one row; each malformed-cardinality case fails with the
corresponding raise site's parsing error, and those messages are pairwise
distinct across sites — except that a missing `ranges` key and an empty
`ranges` array are covered by one shared raise site (see the
counterexample), the code reading `data.get("ranges", [])`. -/
theorem get_current_counters_exactly_one_range_one_row
    (data : RegisterResponse) (names : List String) (types : List RegisterType)
    (hx : extractNamesTypes (data.registers.getD []) = .ok (names, types)) :
    (∀ res, get_current_counters_parse data = .ok res →
      ∃ ro row, data.ranges.getD [] = [ro] ∧ ro.rows = some [row]) ∧
    (data.ranges.getD [] = [] →
      get_current_counters_parse data = .error (.parsingException msgRangesMissingOrEmpty)) ∧
    (∀ r1 r2 rs, data.ranges.getD [] = r1 :: r2 :: rs →
      get_current_counters_parse data =
        .error (.parsingException (msgTooManyRanges (rs.length + 2)))) ∧
    (∀ ts delta, data.ranges.getD [] = [⟨ts, delta, none⟩] →
      get_current_counters_parse data = .error (.parsingException msgRowsMissing)) ∧
    (∀ ts delta, data.ranges.getD [] = [⟨ts, delta, some []⟩] →
      get_current_counters_parse data = .error (.parsingException msgRowsEmpty)) ∧
    (∀ ts delta w1 w2 ws, data.ranges.getD [] = [⟨ts, delta, some (w1 :: w2 :: ws)⟩] →
      get_current_counters_parse data =
        .error (.parsingException (msgTooManyRows (ws.length + 2)))) ∧
    (∀ n m : Nat,
      msgRangesMissingOrEmpty ≠ msgTooManyRanges n ∧
      msgRangesMissingOrEmpty ≠ msgRowsMissing ∧
      msgRangesMissingOrEmpty ≠ msgRowsEmpty ∧
      msgRangesMissingOrEmpty ≠ msgTooManyRows n ∧
      msgTooManyRanges n ≠ msgRowsMissing ∧
      msgTooManyRanges n ≠ msgRowsEmpty ∧
      msgTooManyRanges n ≠ msgTooManyRows m ∧
      msgRowsMissing ≠ msgRowsEmpty ∧
      msgRowsMissing ≠ msgTooManyRows n ∧
      msgRowsEmpty ≠ msgTooManyRows n) := by
  rw [get_current_counters_parse_eq data names types hx]
  obtain ⟨hE1, hE2, hA12, hO12, hR1, hR2, hR3⟩ := counters_msg_chars
  refine ⟨?_, ?_, ?_, ?_, ?_, ?_, ?_⟩
  · intro res hres
    rcases hr : data.ranges.getD [] with _ | ⟨⟨ts, delta, rows⟩, _ | ⟨r2, rs⟩⟩ <;>
      rw [hr] at hres
    · exact absurd hres (by simp)
    · rcases rows with _ | (_ | ⟨row, _ | ⟨w2, ws⟩⟩)
      · exact absurd hres (by simp)
      · exact absurd hres (by simp)
      · exact ⟨⟨ts, delta, some [row]⟩, row, rfl, rfl⟩
      · exact absurd hres (by simp)
    · exact absurd hres (by simp)
  · intro hr; rw [hr]
  · intro r1 r2 rs hr; rw [hr]
  · intro ts delta hr; rw [hr]
  · intro ts delta hr; rw [hr]
  · intro ts delta w1 w2 ws hr; rw [hr]
  · intro n m
    refine ⟨?_, by decide, by decide, ?_, ?_, ?_, ?_, by decide, ?_, ?_⟩
    · exact string_ne_of_get _ _ 0 (by rw [hR1, hE1 n]; decide)
    · exact string_ne_of_get _ _ 0 (by rw [hR1, hE2 n]; decide)
    · exact string_ne_of_get _ _ 0 (by rw [hE1 n, hR2]; decide)
    · exact string_ne_of_get _ _ 0 (by rw [hE1 n, hR3]; decide)
    · exact string_ne_of_get _ _ 12 (by rw [hA12 n, hO12 m]; decide)
    · exact string_ne_of_get _ _ 0 (by rw [hR2, hE2 n]; decide)
    · exact string_ne_of_get _ _ 0 (by rw [hR3, hE2 n]; decide)

/-- Witness for the C6 amended theorem: a concrete response with an empty
`ranges` array fails with the missing-or-empty message. -/
theorem get_current_counters_exactly_one_range_one_row_witness :
    get_current_counters_parse ⟨some [], some []⟩ =
      .error (.parsingException msgRangesMissingOrEmpty) :=
  (get_current_counters_exactly_one_range_one_row ⟨some [], some []⟩ [] [] rfl).2.1 rfl

/-- The source-side row conversion agrees with the spec-side formula whenever
the row does not overrun the register metadata. -/
theorem convertRow_eq_spec (names : List String) (types : List RegisterType)
    (row : List ℤ) (h1 : row.length ≤ names.length) (h2 : row.length ≤ types.length) :
    convertRow names types row = .ok (histSpecRow names types row) := by
  induction row generalizing names types with
  | nil =>
    cases names <;> cases types <;> simp [convertRow, histSpecRow]
  | cons v vs ih =>
    cases names with
    | nil => simp at h1
    | cons n ns =>
      cases types with
      | nil => simp at h2
      | cons t ts =>
        simp only [List.length_cons, Nat.add_le_add_iff_right] at h1 h2
        simp [convertRow, ih ns ts h1 h2, histSpecRow, bind, Except.bind]

/-- The per-range row loop stamps row `i` (counting from the `enumerate`
start `i0`) with `ts - i * delta` and converts values by quantum. -/
theorem processRows_eq_spec (names : List String) (types : List RegisterType)
    (ts delta : ℚ) (i0 : Nat) (rows : List (List ℤ))
    (h : ∀ row ∈ rows, row.length ≤ names.length ∧ row.length ≤ types.length) :
    processRows names types ts delta i0 rows =
      .ok ((rows.enumFrom i0).map fun p =>
        (ts - (p.1 : ℚ) * delta, histSpecRow names types p.2)) := by
  induction rows generalizing i0 with
  | nil => simp [processRows]
  | cons row rest ih =>
    have hrow := h row (List.mem_cons_self row rest)
    have hrest : ∀ r ∈ rest, r.length ≤ names.length ∧ r.length ≤ types.length :=
      fun r hr => h r (List.mem_cons_of_mem row hr)
    simp [processRows, convertRow_eq_spec names types row hrow.1 hrow.2,
      ih (i0 + 1) hrest, bind, Except.bind, List.enumFrom]

/-- The range loop, on ranges carrying all three keys, concatenates the
per-range rows in response order. -/
theorem processRanges_eq_spec (names : List String) (types : List RegisterType)
    (rngs : List (ℚ × ℚ × List (List ℤ)))
    (h : ∀ t ∈ rngs, ∀ row ∈ t.2.2,
      row.length ≤ names.length ∧ row.length ≤ types.length) :
    processRanges names types (rngs.map fun t => ⟨some t.1, some t.2.1, some t.2.2⟩) =
      .ok (rngs.flatMap fun t =>
        (t.2.2.enumFrom 0).map fun p =>
          (t.1 - (p.1 : ℚ) * t.2.1, histSpecRow names types p.2)) := by
  induction rngs with
  | nil => simp [processRanges]
  | cons t rest ih =>
    have ht := h t (List.mem_cons_self t rest)
    have hrest : ∀ u ∈ rest, ∀ row ∈ u.2.2,
        row.length ≤ names.length ∧ row.length ≤ types.length :=
      fun u hu => h u (List.mem_cons_of_mem t hu)
    simp [processRanges, processRows_eq_spec names types t.1 t.2.1 0 t.2.2 ht,
      ih hrest, bind, Except.bind, pure, Except.pure]

/-- C7: for every well-keyed historical response, row `i` of each range is
stamped `anchor - i * delta` (descending time within a range), each raw value
is multiplied by the quantum of its register's type code, and rows of all
ranges are concatenated in response order without sorting. -/
theorem get_historical_counters_timestamps_quantum_order
    (regs : List RegJson) (names : List String) (types : List RegisterType)
    (rngs : List (ℚ × ℚ × List (List ℤ)))
    (hx : extractNamesTypes regs = .ok (names, types))
    (hlen : ∀ t ∈ rngs, ∀ row ∈ t.2.2,
      row.length ≤ names.length ∧ row.length ≤ types.length) :
    get_historical_counters_parse
        ⟨some regs, some (rngs.map fun t => ⟨some t.1, some t.2.1, some t.2.2⟩)⟩ =
      .ok (rngs.flatMap fun t =>
        (t.2.2.enumFrom 0).map fun p =>
          (t.1 - (p.1 : ℚ) * t.2.1, histSpecRow names types p.2)) := by
  simp [get_historical_counters_parse, hx, bind, Except.bind,
    processRanges_eq_spec names types rngs hlen]

/-- Witness for C7 at the spec's example: anchor `1678298313`, `delta = 60`,
two rows for one power register. -/
theorem get_historical_counters_timestamps_quantum_order_witness :
    get_historical_counters_parse
        ⟨some [⟨some "Grid", some .POWER, none⟩],
         some (([((1678298313 : ℚ), (60 : ℚ), [[(100 : ℤ)], [200]])]).map fun t =>
           (⟨some t.1, some t.2.1, some t.2.2⟩ : RangeJson))⟩ =
      .ok (([((1678298313 : ℚ), (60 : ℚ), [[(100 : ℤ)], [200]])]).flatMap fun t =>
        (t.2.2.enumFrom 0).map fun p =>
          (t.1 - (p.1 : ℚ) * t.2.1, histSpecRow ["Grid"] [.POWER] p.2)) :=
  get_historical_counters_timestamps_quantum_order
    [⟨some "Grid", some .POWER, none⟩] ["Grid"] [.POWER]
    [((1678298313 : ℚ), (60 : ℚ), [[(100 : ℤ)], [200]])] rfl (by decide)

/-- Numeric grounding of the spec's historical-timestamp example (§8): row 0
is stamped `1678298313`, row 1 is stamped `1678298313 - 60 = 1678298253`. -/
theorem historical_timestamps_example :
    get_historical_counters_parse
        ⟨some [⟨some "Grid", some .POWER, none⟩],
         some [⟨some 1678298313, some 60, some [[100], [200]]⟩]⟩ =
      .ok [(1678298313, [("Grid", 100)]), (1678298253, [("Grid", 200)])] := by
  norm_num [get_historical_counters_parse, extractNamesTypes, processRanges,
    processRows, convertRow, get_quantum, bind, Except.bind, pure, Except.pure]

/-- C9: in `get_historical_counters` a range object missing its anchor `ts`,
its `delta`, or its `rows` key fails with a Python `KeyError` — a generic
built-in error, not the repository's `EgaugeParsingException` — because the
code reads `range_obj["ts"]`, `range_obj["delta"]` and `range_obj["rows"]`
without presence checks (client.py lines 373-377), unlike the checked
`name`/`type` register fields. -/
theorem get_historical_counters_missing_field_keyerror :
    (get_historical_counters_parse
        ⟨some [⟨some "Grid", some .POWER, none⟩], some [⟨none, some 60, some [[1]]⟩]⟩ =
      .error (.keyError "ts")) ∧
    (get_historical_counters_parse
        ⟨some [⟨some "Grid", some .POWER, none⟩],
         some [⟨some 1678298313, none, some [[1]]⟩]⟩ =
      .error (.keyError "delta")) ∧
    (get_historical_counters_parse
        ⟨some [⟨some "Grid", some .POWER, none⟩],
         some [⟨some 1678298313, some 60, none⟩]⟩ =
      .error (.keyError "rows")) ∧
    (∀ k, isEgaugeParsingException (.keyError k) = false) :=
  ⟨rfl, rfl, rfl, fun _ => rfl⟩

/-- `resolve_indices` fails with `EgaugeUnknownRegisterError` naming exactly
the first requested name absent from the catalog. -/
theorem resolve_indices_first_unresolved (reg_info : List (String × RegisterInfo))
    (regs : List String) (r : String)
    (h : regs.find? (fun x => (dictLookup reg_info x).isNone) = some r) :
    resolve_indices reg_info regs = .error (.unknownRegister ("Unknown register " ++ r)) := by
  induction regs with
  | nil => simp [List.find?] at h
  | cons x rest ih =>
    rcases hx : dictLookup reg_info x with _ | info
    · rw [List.find?_cons_of_pos _ (by simp [hx])] at h
      cases h
      simp [resolve_indices, hx]
    · rw [List.find?_cons_of_neg _ (by simp [hx])] at h
      simp [resolve_indices, hx, ih h, bind, Except.bind]

/-- C8: a query filtered to register names of which some are absent from the
catalog fails with `EgaugeUnknownRegisterError` naming exactly the first
unresolved name in filter order (no batch report), and issues no measurement
HTTP request (the request log stays empty), for each of the three query
methods and every possible transport response. -/
theorem unknown_register_first_name_no_request
    (reg_info : List (String × RegisterInfo)) (regs : List String) (r : String)
    (h : regs.find? (fun x => (dictLookup reg_info x).isNone) = some r) :
    ∀ respond,
      get_current_measurements_run reg_info (some regs) respond =
        (.error (.unknownRegister ("Unknown register " ++ r)), []) ∧
      get_current_counters_run reg_info (some regs) respond =
        (.error (.unknownRegister ("Unknown register " ++ r)), []) ∧
      (∀ st en sp mr,
        get_historical_counters_run reg_info st en sp (some regs) mr respond =
          (.error (.unknownRegister ("Unknown register " ++ r)), [])) := by
  intro respond
  have hne : regs ≠ [] := by
    intro he
    rw [he] at h
    simp [List.find?] at h
  have hres := resolve_indices_first_unresolved reg_info regs r h
  have hlen : regs.length > 0 := List.length_pos.mpr hne
  refine ⟨?_, ?_, fun st en sp mr => ?_⟩ <;>
    simp [get_current_measurements_run, get_current_counters_run,
      get_historical_counters_run, build_reg_params, hlen, hres, bind, Except.bind]

/-- Witness for C8: a catalog containing only `Grid`, queried for
`Nonexistent`. -/
theorem unknown_register_first_name_no_request_witness :
    get_current_measurements_run [("Grid", ⟨"Grid", .POWER, 17, none⟩)]
        (some ["Nonexistent", "Grid"]) (fun _ => ⟨none, none⟩) =
      (.error (.unknownRegister ("Unknown register " ++ "Nonexistent")), []) :=
  (unknown_register_first_name_no_request [("Grid", ⟨"Grid", .POWER, 17, none⟩)]
    ["Nonexistent", "Grid"] "Nonexistent" (by decide) (fun _ => ⟨none, none⟩)).1

/-- `NoUnknown` is preserved by sequencing. -/
theorem EgaugeAsync.NoUnknown.bind {α β : Type} {x : Except EgaugeError α}
    {f : α → Except EgaugeError β}
    (hx : NoUnknown x) (hf : ∀ a, NoUnknown (f a)) : NoUnknown (x >>= f) := by
  cases x with
  | error e =>
    intro msg hc
    exact hx msg (by simpa [Bind.bind, Except.bind] using hc)
  | ok a =>
    intro msg hc
    exact hf a msg (by simpa [Bind.bind, Except.bind] using hc)

/-- A success is `NoUnknown`. -/
theorem EgaugeAsync.NoUnknown.ok {α : Type} (a : α) : NoUnknown (Except.ok (ε := EgaugeError) a) := by
  simp [NoUnknown]

/-- A parsing error is `NoUnknown`. -/
theorem EgaugeAsync.NoUnknown.parsing {α : Type} (m : String) :
    NoUnknown (Except.error (α := α) (EgaugeError.parsingException m)) := by
  simp [NoUnknown]

/-- A `KeyError` is `NoUnknown`. -/
theorem EgaugeAsync.NoUnknown.key {α : Type} (k : String) :
    NoUnknown (Except.error (α := α) (EgaugeError.keyError k)) := by
  simp [NoUnknown]

/-- An `IndexError` is `NoUnknown`. -/
theorem EgaugeAsync.NoUnknown.index {α : Type} :
    NoUnknown (Except.error (α := α) EgaugeError.indexError) := by
  simp [NoUnknown]

/-- Register metadata extraction never raises `UnknownRegister`. -/
theorem extractNamesTypes_no_unknown (rs : List RegJson) :
    NoUnknown (extractNamesTypes rs) := by
  induction rs with
  | nil => exact .ok _
  | cons r rest ih =>
    simp only [extractNamesTypes]
    cases r.name with
    | none => exact .parsing _
    | some n =>
      cases r.type with
      | none => exact .parsing _
      | some t =>
        exact .bind ih fun a => by obtain ⟨ns, ts⟩ := a; exact .ok _

/-- Row conversion never raises `UnknownRegister`. -/
theorem convertRow_no_unknown (names : List String) (types : List RegisterType)
    (row : List ℤ) : NoUnknown (convertRow names types row) := by
  induction row generalizing names types with
  | nil => cases names <;> cases types <;> exact .ok _
  | cons v vs ih =>
    cases names with
    | nil => exact .index
    | cons n ns =>
      cases types with
      | nil => exact .index
      | cons t ts =>
        simp only [convertRow]
        exact .bind (ih ns ts) fun a => .ok _

/-- The measurement (rate) decoding loop never raises `UnknownRegister`. -/
theorem parse_current_measurements_no_unknown (rs : List RegJson) :
    NoUnknown (parse_current_measurements rs) := by
  induction rs with
  | nil => exact .ok _
  | cons r rest ih =>
    simp only [parse_current_measurements]
    cases r.name with
    | none => exact .parsing _
    | some n =>
      cases r.rate with
      | none => exact .parsing _
      | some rate => exact .bind ih fun a => .ok _

/-- The counters response decoder never raises `UnknownRegister`. -/
theorem get_current_counters_parse_no_unknown (data : RegisterResponse) :
    NoUnknown (get_current_counters_parse data) := by
  unfold get_current_counters_parse
  refine .bind (extractNamesTypes_no_unknown _) fun a => ?_
  obtain ⟨names, types⟩ := a
  rcases data.ranges.getD [] with _ | ⟨⟨ts, delta, rows⟩, _ | ⟨r2, rs⟩⟩
  · exact .parsing _
  · rcases rows with _ | (_ | ⟨row, _ | _⟩) <;>
      first
        | exact .parsing _
        | · simp only
            first
              | exact .parsing _
              | exact convertRow_no_unknown _ _ _
  · exact .parsing _

/-- The historical per-range row loop never raises `UnknownRegister`. -/
theorem processRows_no_unknown (names : List String) (types : List RegisterType)
    (ts delta : ℚ) (i : Nat) (rows : List (List ℤ)) :
    NoUnknown (processRows names types ts delta i rows) := by
  induction rows generalizing i with
  | nil => exact .ok _
  | cons row rest ih =>
    simp only [processRows]
    exact .bind (convertRow_no_unknown _ _ _) fun a => .bind (ih _) fun b => .ok _

/-- The historical range loop never raises `UnknownRegister`. -/
theorem processRanges_no_unknown (names : List String) (types : List RegisterType)
    (rngs : List RangeJson) : NoUnknown (processRanges names types rngs) := by
  induction rngs with
  | nil => exact .ok _
  | cons r rest ih =>
    simp only [processRanges, pure, Except.pure]
    rcases h1 : r.ts with _ | v <;> simp only [h1] <;>
      refine .bind (by first | exact .key _ | exact .ok _) fun a => ?_ <;>
    rcases h2 : r.delta with _ | w <;> simp only [h2] <;>
      refine .bind (by first | exact .key _ | exact .ok _) fun b => ?_ <;>
    rcases h3 : r.rows with _ | rows <;> simp only [h3] <;>
      refine .bind (by first | exact .key _ | exact .ok _) fun c => ?_ <;>
    exact .bind (processRows_no_unknown _ _ _ _ _ _) fun d => .bind ih fun e => .ok _

/-- The historical response decoder never raises `UnknownRegister`. -/
theorem get_historical_counters_parse_no_unknown (data : RegisterResponse) :
    NoUnknown (get_historical_counters_parse data) := by
  unfold get_historical_counters_parse
  refine .bind (extractNamesTypes_no_unknown _) fun a => ?_
  obtain ⟨names, types⟩ := a
  exact processRanges_no_unknown _ _ _

/-- C10: for each of the three measurement queries, an empty-list register
filter behaves identically to passing `None`: the result does not depend on
the catalog at all (the two sides may even use different catalogs), no
`UnknownRegister` error can arise, and the single measurement request issued
carries no `reg` query parameter — so measurements for all registers are
returned, exactly as with no filter. -/
theorem empty_register_filter_like_none :
    ∀ (ri ri' : List (String × RegisterInfo))
      (respond : List (String × String) → RegisterResponse),
      (get_current_measurements_run ri (some []) respond =
        get_current_measurements_run ri' none respond) ∧
      (get_current_counters_run ri (some []) respond =
        get_current_counters_run ri' none respond) ∧
      (∀ st en sp mr, get_historical_counters_run ri st en sp (some []) mr respond =
        get_historical_counters_run ri' st en sp none mr respond) ∧
      (∀ msg, (get_current_measurements_run ri (some []) respond).1 ≠
        .error (.unknownRegister msg)) ∧
      (∀ msg, (get_current_counters_run ri (some []) respond).1 ≠
        .error (.unknownRegister msg)) ∧
      (∀ st en sp mr msg,
        (get_historical_counters_run ri st en sp (some []) mr respond).1 ≠
          .error (.unknownRegister msg)) ∧
      (∀ ps, ps ∈ (get_current_measurements_run ri (some []) respond).2 →
        ∀ v, ("reg", v) ∉ ps) ∧
      (∀ ps, ps ∈ (get_current_counters_run ri (some []) respond).2 →
        ∀ v, ("reg", v) ∉ ps) ∧
      (∀ st en sp mr ps,
        ps ∈ (get_historical_counters_run ri st en sp (some []) mr respond).2 →
        ∀ v, ("reg", v) ∉ ps) := by
  intro ri ri' respond
  refine ⟨rfl, rfl, fun st en sp mr => rfl, ?_, ?_, ?_, ?_, ?_, ?_⟩
  · exact fun msg => parse_current_measurements_no_unknown _ msg
  · exact fun msg => get_current_counters_parse_no_unknown _ msg
  · exact fun st en sp mr msg => get_historical_counters_parse_no_unknown _ msg
  · intro ps hps v
    simp [get_current_measurements_run, build_reg_params] at hps
    subst hps
    simp
  · intro ps hps v
    simp [get_current_counters_run, build_reg_params] at hps
    subst hps
    simp
  · intro st en sp mr ps hps v
    cases mr with
    | none =>
      simp [get_historical_counters_run, build_reg_params] at hps
      subst hps
      simp
    | some m =>
      simp [get_historical_counters_run, build_reg_params] at hps
      subst hps
      simp

/-- Under the scenario hypotheses the initial cached state is not the fresh
one (it is invalid, the fresh token is valid). -/
theorem authScenario_init_ne_fresh (cfg : AuthScenario)
    (hinit : is_token_valid cfg.init cfg.buffer cfg.now = false)
    (hfresh : is_token_valid (some cfg.fresh) cfg.buffer cfg.now = true) :
    cfg.init ≠ some cfg.fresh := by
  intro h
  rw [h, hfresh] at hinit
  exact Bool.noConfusion hinit

/-- Every step preserves the number of callers. -/
theorem authStep_card (cfg : AuthScenario) {s s' : AuthSys}
    (h : AuthStep cfg s s') : s'.tasks.card = s.tasks.card := by
  cases h <;> simp

/-- The invariant holds initially. -/
theorem authInv_initial (cfg : AuthScenario)
    (hinit : is_token_valid cfg.init cfg.buffer cfg.now = false)
    (hfresh : is_token_valid (some cfg.fresh) cfg.buffer cfg.now = true)
    (n : Nat) : AuthInv cfg (AuthSys.initial cfg n) := by
  have hnif := authScenario_init_ne_fresh cfg hinit hfresh
  refine ⟨Or.inl rfl, ?_, ?_, ?_, ?_, ?_, ?_⟩
  · simp [AuthSys.initial, Multiset.count_replicate]
  · simp [AuthSys.initial, Multiset.count_replicate]
  · simp [AuthSys.initial, Multiset.count_replicate, refreshedBit, hnif]
  · simp [AuthSys.initial, Multiset.count_replicate, refreshedBit, hnif]
  · intro h
    exact absurd h hnif
  · intro tok hmem
    rw [AuthSys.initial] at hmem
    simp only [Multiset.mem_replicate] at hmem
    exact absurd hmem.2 (by rintro ⟨⟩)

/-- Every step preserves the invariant. -/
theorem authInv_step (cfg : AuthScenario)
    (hinit : is_token_valid cfg.init cfg.buffer cfg.now = false)
    (hfresh : is_token_valid (some cfg.fresh) cfg.buffer cfg.now = true)
    {s s' : AuthSys} (hstep : AuthStep cfg s s') (hinv : AuthInv cfg s) :
    AuthInv cfg s' := by
  have hnif := authScenario_init_ne_fresh cfg hinit hfresh
  obtain ⟨htc, hfl, hli, hne, hle, hff, hdo⟩ := hinv
  cases hstep with
  | fastPathHit ts lock rest nf lp hval =>
    dsimp only at htc hfl hli hne hle hff hdo
    simp only [Multiset.count_cons, refreshedBit] at htc hfl hli hne hle hff ⊢
    have hsf : some ts = some cfg.fresh := by
      rcases htc with h | h
      · rw [h] at hval
        exact absurd (hinit.symm.trans hval) (by decide)
      · exact h
    refine ⟨Or.inr hsf, ?_, ?_, ?_, ?_, ?_, ?_⟩
    · simpa [Multiset.count_cons] using hfl
    · simpa [Multiset.count_cons] using hli
    · simpa [Multiset.count_cons, refreshedBit] using hne
    · simpa [Multiset.count_cons, refreshedBit] using hle
    · intro h
      simpa [Multiset.count_cons] using hff h
    · intro tok hmem
      rcases Multiset.mem_cons.mp hmem with he | hr
      · injection he with h1
        subst h1
        exact ⟨by rw [show ts = cfg.fresh from Option.some.inj hsf]; rfl, hsf⟩
      · exact hdo tok (Multiset.mem_cons_of_mem hr)
  | fastPathMiss tok lock rest nf lp hval =>
    dsimp only at htc hfl hli hne hle hff hdo
    refine ⟨htc, ?_, ?_, ?_, ?_, ?_, ?_⟩
    · simpa [Multiset.count_cons] using hfl
    · simpa [Multiset.count_cons] using hli
    · simpa [Multiset.count_cons, refreshedBit] using hne
    · simpa [Multiset.count_cons, refreshedBit] using hle
    · intro h
      simpa [Multiset.count_cons] using hff h
    · intro tok' hmem
      rcases Multiset.mem_cons.mp hmem with he | hr
      · exact absurd he (by rintro ⟨⟩)
      · exact hdo tok' (Multiset.mem_cons_of_mem hr)
  | acquireValid ts rest nf lp hval =>
    dsimp only at htc hfl hli hne hle hff hdo
    have hsf : some ts = some cfg.fresh := by
      rcases htc with h | h
      · rw [h] at hval
        exact absurd (hinit.symm.trans hval) (by decide)
      · exact h
    refine ⟨Or.inr hsf, ?_, ?_, ?_, ?_, ?_, ?_⟩
    · simpa [Multiset.count_cons] using hfl
    · simpa [Multiset.count_cons] using hli
    · simpa [Multiset.count_cons, refreshedBit] using hne
    · simpa [Multiset.count_cons, refreshedBit] using hle
    · intro h
      simpa [Multiset.count_cons] using hff h
    · intro tok hmem
      rcases Multiset.mem_cons.mp hmem with he | hr
      · injection he with h1
        subst h1
        exact ⟨by rw [show ts = cfg.fresh from Option.some.inj hsf]; rfl, hsf⟩
      · exact hdo tok (Multiset.mem_cons_of_mem hr)
  | acquireInvalid tok rest nf lp hval =>
    dsimp only at htc hfl hli hne hle hff hdo
    have htok : tok = cfg.init := by
      rcases htc with h | h
      · exact h
      · rw [h] at hval
        exact absurd (hfresh.symm.trans hval) (by decide)
    have hbit : (if tok = some cfg.fresh then 1 else 0) = 0 := by
      simp [htok, hnif]
    simp [Multiset.count_cons, refreshedBit] at hfl hli hne hle
    have hz : rest.count .fetching = 0 ∧ rest.count .loggingIn = 0 := by
      constructor <;> omega
    refine ⟨htc, ?_, ?_, ?_, ?_, ?_, ?_⟩
    · simp [Multiset.count_cons]
      omega
    · simp [Multiset.count_cons]
      omega
    · simp [Multiset.count_cons, refreshedBit]
      omega
    · simp [Multiset.count_cons, refreshedBit]
      omega
    · intro h
      exact absurd h (by rw [htok]; exact hnif)
    · intro tok' hmem
      rcases Multiset.mem_cons.mp hmem with he | hr
      · exact absurd he (by rintro ⟨⟩)
      · obtain ⟨-, hts⟩ := hdo tok' (Multiset.mem_cons_of_mem hr)
        exact absurd (htok ▸ hts) hnif
  | nonceResponds tok lock rest nf lp =>
    dsimp only at htc hfl hli hne hle hff hdo
    simp [Multiset.count_cons, refreshedBit] at hfl hne hle
    refine ⟨htc, ?_, ?_, ?_, ?_, ?_, ?_⟩
    · simp [Multiset.count_cons]
      omega
    · cases lock <;> simp [Multiset.count_cons] at hli ⊢ <;> omega
    · simp [Multiset.count_cons, refreshedBit]
      omega
    · simp [Multiset.count_cons, refreshedBit]
      omega
    · intro h
      have h2 := hff h
      simp [Multiset.count_cons] at h2
    · intro tok' hmem
      rcases Multiset.mem_cons.mp hmem with he | hr
      · exact absurd he (by rintro ⟨⟩)
      · exact hdo tok' (Multiset.mem_cons_of_mem hr)
  | loginResponds tok lock rest nf lp =>
    dsimp only at htc hfl hli hne hle hff hdo
    have hbit : (if tok = some cfg.fresh then 1 else 0) = 0 := by
      by_cases h : tok = some cfg.fresh
      · have h2 := hff h
        simp [Multiset.count_cons] at h2
      · simp [h]
    have e1 : Multiset.count TaskSt.fetching (TaskSt.loggingIn ::ₘ rest) =
        rest.count TaskSt.fetching := Multiset.count_cons_of_ne (by rintro ⟨⟩) _
    have e2 : Multiset.count TaskSt.loggingIn (TaskSt.loggingIn ::ₘ rest) =
        rest.count TaskSt.loggingIn + 1 := Multiset.count_cons_self _ _
    have f1 : Multiset.count TaskSt.fetching (TaskSt.done cfg.newTok ::ₘ rest) =
        rest.count TaskSt.fetching := Multiset.count_cons_of_ne (by rintro ⟨⟩) _
    have f2 : Multiset.count TaskSt.loggingIn (TaskSt.done cfg.newTok ::ₘ rest) =
        rest.count TaskSt.loggingIn := Multiset.count_cons_of_ne (by rintro ⟨⟩) _
    rw [e1, e2] at hfl hne
    rw [e2] at hle
    simp only [refreshedBit] at hne hle
    refine ⟨Or.inr rfl, ?_, ?_, ?_, ?_, ?_, ?_⟩
    · rw [f1, f2]
      omega
    · rw [f1, f2]
      constructor
      · intro hcon
        exact Bool.noConfusion hcon
      · intro hcon
        exact absurd hcon (by omega)
    · rw [f1, f2]
      simp only [refreshedBit, eq_self_iff_true, if_true]
      omega
    · rw [f2]
      simp only [refreshedBit, eq_self_iff_true, if_true]
      omega
    · intro h
      rw [f1, f2]
      omega
    · intro tok' hmem
      rcases Multiset.mem_cons.mp hmem with he | hr
      · injection he with h1
        subst h1
        exact ⟨rfl, rfl⟩
      · obtain ⟨-, hts⟩ := hdo tok' (Multiset.mem_cons_of_mem hr)
        have h2 := hff hts
        simp [Multiset.count_cons] at h2

/-- The invariant holds in every reachable state. -/
theorem authInv_reachable (cfg : AuthScenario)
    (hinit : is_token_valid cfg.init cfg.buffer cfg.now = false)
    (hfresh : is_token_valid (some cfg.fresh) cfg.buffer cfg.now = true)
    (n : Nat) {s : AuthSys}
    (hreach : Relation.ReflTransGen (AuthStep cfg) (AuthSys.initial cfg n) s) :
    AuthInv cfg s := by
  induction hreach with
  | refl => exact authInv_initial cfg hinit hfresh n
  | tail hsteps hstep ih => exact authInv_step cfg hinit hfresh hstep ih

/-- The number of callers is constant along every execution. -/
theorem auth_card_reachable (cfg : AuthScenario) (n : Nat) {s : AuthSys}
    (hreach : Relation.ReflTransGen (AuthStep cfg) (AuthSys.initial cfg n) s) :
    s.tasks.card = n := by
  induction hreach with
  | refl => simp [AuthSys.initial]
  | tail hsteps hstep ih => rw [authStep_card cfg hstep]; exact ih

/-- C1: starting from an absent-or-invalid cached token, along every
interleaving of any number of concurrent `get_token` callers at most one
nonce fetch and at most one login POST are ever issued; and in every
completed execution (all callers returned, at least one caller) exactly one
nonce fetch and one login POST happened and every caller returned the
identical newly cached token. -/
theorem get_token_concurrent_single_refresh
    (cfg : AuthScenario)
    (hinit : is_token_valid cfg.init cfg.buffer cfg.now = false)
    (hfresh : is_token_valid (some cfg.fresh) cfg.buffer cfg.now = true)
    (n : Nat) (s : AuthSys)
    (hreach : Relation.ReflTransGen (AuthStep cfg) (AuthSys.initial cfg n) s) :
    (s.nonceFetches ≤ 1 ∧ s.loginPosts ≤ 1) ∧
    ((∀ t ∈ s.tasks, ∃ tok, t = TaskSt.done tok) → 0 < n →
      s.nonceFetches = 1 ∧ s.loginPosts = 1 ∧
      ∀ t ∈ s.tasks, t = TaskSt.done cfg.newTok) := by
  obtain ⟨htc, hfl, hli, hne, hle, hff, hdo⟩ := authInv_reachable cfg hinit hfresh n hreach
  have hcard : s.tasks.card = n := auth_card_reachable cfg n hreach
  constructor
  · by_cases hb : s.tokenState = some cfg.fresh
    · have hc0 := hff hb
      have hbit : refreshedBit cfg s = 1 := by simp [refreshedBit, hb]
      omega
    · have hbit : refreshedBit cfg s = 0 := by simp [refreshedBit, hb]
      omega
  · intro hall hn
    have hne0 : s.tasks ≠ 0 := by
      intro h0
      rw [h0] at hcard
      simp at hcard
      omega
    obtain ⟨t, ht⟩ := Multiset.exists_mem_of_ne_zero hne0
    obtain ⟨tok0, htok0⟩ := hall t ht
    obtain ⟨-, hfr⟩ := hdo tok0 (htok0 ▸ ht)
    have hc0 := hff hfr
    have hbit : refreshedBit cfg s = 1 := by simp [refreshedBit, hfr]
    refine ⟨by omega, by omega, ?_⟩
    intro t' ht'
    obtain ⟨tok', htok'⟩ := hall t' ht'
    obtain ⟨heq, -⟩ := hdo tok' (htok' ▸ ht')
    rw [htok', heq]

/-- Witness for C1: one caller, empty cache, clock fixed at 1000, mocked
token `"tok"` expiring at 2000 under a 60-second buffer; the complete run
fast-path-miss → acquire → nonce → login ends with exactly one nonce fetch
and one login POST. -/
theorem get_token_concurrent_single_refresh_witness :
    (⟨some ⟨"tok", 2000, 1000⟩, false, TaskSt.done "tok" ::ₘ 0, 1, 1⟩ : AuthSys).nonceFetches = 1 ∧
    (⟨some ⟨"tok", 2000, 1000⟩, false, TaskSt.done "tok" ::ₘ 0, 1, 1⟩ : AuthSys).loginPosts = 1 := by
  have hrun : Relation.ReflTransGen (AuthStep ⟨none, 60, 1000, "tok", 2000⟩)
      (AuthSys.initial ⟨none, 60, 1000, "tok", 2000⟩ 1)
      ⟨some ⟨"tok", 2000, 1000⟩, false, TaskSt.done "tok" ::ₘ 0, 1, 1⟩ := by
    have st1 : AuthStep ⟨none, 60, 1000, "tok", 2000⟩
        ⟨none, false, TaskSt.start ::ₘ 0, 0, 0⟩ ⟨none, false, TaskSt.wantLock ::ₘ 0, 0, 0⟩ :=
      AuthStep.fastPathMiss none false 0 0 0 rfl
    have st2 : AuthStep ⟨none, 60, 1000, "tok", 2000⟩
        ⟨none, false, TaskSt.wantLock ::ₘ 0, 0, 0⟩ ⟨none, true, TaskSt.fetching ::ₘ 0, 1, 0⟩ :=
      AuthStep.acquireInvalid none 0 0 0 rfl
    have st3 : AuthStep ⟨none, 60, 1000, "tok", 2000⟩
        ⟨none, true, TaskSt.fetching ::ₘ 0, 1, 0⟩ ⟨none, true, TaskSt.loggingIn ::ₘ 0, 1, 1⟩ :=
      AuthStep.nonceResponds none true 0 1 0
    have st4 : AuthStep ⟨none, 60, 1000, "tok", 2000⟩
        ⟨none, true, TaskSt.loggingIn ::ₘ 0, 1, 1⟩
        ⟨some ⟨"tok", 2000, 1000⟩, false, TaskSt.done "tok" ::ₘ 0, 1, 1⟩ :=
      AuthStep.loginResponds none true 0 1 1
    exact ((((Relation.ReflTransGen.refl).tail st1).tail st2).tail st3).tail st4
  have hall : ∀ t ∈ (⟨some ⟨"tok", 2000, 1000⟩, false,
      TaskSt.done "tok" ::ₘ 0, 1, 1⟩ : AuthSys).tasks, ∃ tok, t = TaskSt.done tok := by
    intro t ht
    simp only [Multiset.mem_cons, Multiset.not_mem_zero, or_false] at ht
    exact ⟨"tok", ht⟩
  have h := (get_token_concurrent_single_refresh ⟨none, 60, 1000, "tok", 2000⟩
    rfl (by norm_num [is_token_valid, AuthScenario.fresh]) 1 _ hrun).2 hall (by decide)
  exact ⟨h.1, h.2.1⟩
